import Mathlib

/-!
Shallow embedding of the hub.js sources:
  * `packages/common/src/search/_internal/hubSearchItems.ts` (namespace `HubSearchItems`)
  * the standalone `getQueryString` with URI encoding (namespace `UrlUtils`)
  * `packages/content/src/content.ts` (namespace `Content`)
  * the followers-group `buildUiSchema` module (namespace `FollowersUiSchema`)
  * the events `processFilters` module (namespace `EventsFilters`)

JavaScript values relevant to each function are modelled with explicit
variant types; JS truthiness is made explicit wherever the source relies
on it.  External services (portal fetches, group search, the clock) are
passed in as explicit oracle parameters.
-/

namespace HubJS

/-- A JSON-like value, used for item data, metadata documents and UI-schema
documents.  Mirrors the untyped `any`/`Record<string, any>` shapes in the
TypeScript source. -/
inductive Json where
  | null
  | bool (b : Bool)
  | num (n : Int)
  | str (s : String)
  | arr (items : List Json)
  | obj (fields : List (String × Json))

/-- JS truthiness of a JSON value: `null`, `false`, `0` and `""` are falsy;
arrays and objects are always truthy. -/
def jsTruthy : Json → Bool
  | .null => false
  | .bool b => b
  | .num n => n != 0
  | .str s => s != ""
  | .arr _ => true
  | .obj _ => true

/-- JS truthiness of a possibly-undefined JSON value (`undefined` is falsy). -/
def jsTruthyOpt : Option Json → Bool
  | some v => jsTruthy v
  | none => false

mutual
/-- JS string coercion of a JSON value (as used when a value indexes an
object or is interpolated into a template string). -/
def jsonToKeyString : Json → String
  | .null => "null"
  | .bool true => "true"
  | .bool false => "false"
  | .num n => toString n
  | .str s => s
  | .arr l => jsonListToKeyString l
  | .obj _ => "[object Object]"

/-- JS string coercion of an array of JSON values: elements joined by ",". -/
def jsonListToKeyString : List Json → String
  | [] => ""
  | [j] => jsonToKeyString j
  | j :: rest => jsonToKeyString j ++ "," ++ jsonListToKeyString rest
end

/-- Modelled from the spec: `getProp` from `@esri/hub-common` (not under
`src/`), the "metadata-path lookup": walks an object along a chain of keys,
returning `undefined` (here `none`) when any step is missing or not an
object. -/
def getPropPath : Json → List String → Option Json
  | j, [] => some j
  | .obj fields, key :: rest =>
    match fields.find? (fun kv => kv.1 == key) with
    | some kv => getPropPath kv.2 rest
    | none => none
  | _, _ :: _ => none

end HubJS

namespace HubSearchItems

open HubJS

/-- A predicate field value in `IPredicate` (`Record<string, any>`): a
string, an array of strings, an object with optional `any`/`all`/`not`
lists, or `undefined`. -/
inductive PredVal where
  | str (s : String)
  | arr (l : List String)
  | obj (anyV allV notV : Option (List String))
  | undef

/-- JS truthiness of a predicate field value: `""` and `undefined` are
falsy; arrays and objects (even empty) are truthy. -/
def predTruthy : PredVal → Bool
  | .str s => s != ""
  | .arr _ => true
  | .obj _ _ _ => true
  | .undef => false

/-- An `IPredicate`: an object, i.e. ordered key/value entries. -/
def Predicate := List (String × PredVal)

/-- An `IFilter`: an optional operation and a list of predicates. -/
structure Filter where
  operation : Option String
  predicates : List Predicate

/-- An `IQuery`: a list of filters. -/
structure Query where
  filters : List Filter

/-- The section string built for one truthy entry of a predicate, per
`formatPredicate`'s `reduce` body: strings become `field=value`, arrays
become `field IN (...)`, and objects join their `any`/`all`/`not`
subsections (dropping falsy subsections) with `" AND "`. -/
def sectionFor (field : String) : PredVal → String
  | .str s => field ++ "=" ++ s
  | .arr l => field ++ " IN (" ++ String.intercalate ", " l ++ ")"
  | .obj anyV allV notV =>
    let anys := anyV.map (fun l => field ++ " IN (" ++ String.intercalate ", " l ++ ")")
    let alls := allV.map (fun l =>
      String.intercalate " AND " (l.map (fun v => field ++ "=" ++ v)))
    let nots := notV.map (fun l => field ++ " NOT IN (" ++ String.intercalate ", " l ++ ")")
    String.intercalate " AND "
      (([anys, alls, nots].filterMap id).filter (fun s => s != ""))
  | .undef => ""

/-- `formatPredicate`: drop falsy entries, build a section per field, join
with `" AND "`, and parenthesize. -/
def formatPredicate (predicate : Predicate) : String :=
  let formatted := String.intercalate " AND "
    ((predicate.filter (fun kv => predTruthy kv.2)).map (fun kv => sectionFor kv.1 kv.2))
  "(" ++ formatted ++ ")"

/-- `filter.operation || "OR"`: JS falls back to `"OR"` when the operation
is `undefined` or the empty string. -/
def filterOperation (operation : Option String) : String :=
  match operation with
  | some s => if s == "" then "OR" else s
  | none => "OR"

/-- `formatFilterBlock`: predicates formatted and joined by the (defaulted)
operation, parenthesized. -/
def formatFilterBlock (filter : Filter) : String :=
  let operation := filterOperation filter.operation
  let formatted := String.intercalate (" " ++ operation ++ " ")
    (filter.predicates.map formatPredicate)
  "(" ++ formatted ++ ")"

/-- `getFilterQueryParam`: filter blocks joined by `" AND "`. -/
def getFilterQueryParam (query : Query) : String :=
  String.intercalate " AND " (query.filters.map formatFilterBlock)

/-- A query-parameter value (`IQueryParams` holds untyped values). -/
inductive QVal where
  | str (s : String)
  | num (n : Int)
  | bool (b : Bool)
  | undef

/-- JS truthiness of a query-parameter value. -/
def qvalTruthy : QVal → Bool
  | .str s => s != ""
  | .num n => n != 0
  | .bool b => b
  | .undef => false

/-- JS string interpolation of a query-parameter value. -/
def qvalToString : QVal → String
  | .str s => s
  | .num n => toString n
  | .bool true => "true"
  | .bool false => "false"
  | .undef => "undefined"

/-- `getQueryString` from `hubSearchItems.ts`: keep truthy entries, render
`key=value` pairs joined by `&`, and prefix `?` unless empty. -/
def getQueryString (queryParams : List (String × QVal)) : String :=
  let result := String.intercalate "&"
    ((queryParams.filter (fun kv => qvalTruthy kv.2)).map
      (fun kv => kv.1 ++ "=" ++ qvalToString kv.2))
  if result == "" then "" else "?" ++ result

/-- Search options: only the fields the embedded functions inspect. -/
structure SearchOptions where
  aggFields : Option (List String)

/-- `options.aggFields?.length` as a truthy test: `undefined` and length 0
are falsy. -/
def aggFieldsTruthy (options : SearchOptions) : Bool :=
  match options.aggFields with
  | some l => l.length != 0
  | none => false

/-- `searchOgcAggregations`: ignores both arguments and resolves `null`. -/
def searchOgcAggregations {R : Type} (_query : Query) (_options : SearchOptions) :
    Option R :=
  none

/-- `hubSearchItems`: dispatches on `options.aggFields?.length` between the
aggregations path and the items path.  `searchOgcItems` performs an HTTP
request, so its result is an oracle parameter. -/
def hubSearchItems {R : Type} (searchOgcItemsOracle : Query → SearchOptions → Option R)
    (query : Query) (options : SearchOptions) : Option R :=
  if aggFieldsTruthy options then searchOgcAggregations query options
  else searchOgcItemsOracle query options

end HubSearchItems

namespace UrlUtils

open HubSearchItems

/-- A hexadecimal digit character (uppercase), for percent-encoding. -/
def hexDigit (n : Nat) : Char :=
  if n < 10 then Char.ofNat (48 + n) else Char.ofNat (65 + n - 10)

/-- The UTF-8 bytes of a character, as used by `encodeURIComponent`. -/
def utf8Bytes (c : Char) : List Nat :=
  let n := c.toNat
  if n < 128 then [n]
  else if n < 2048 then [192 + n / 64, 128 + n % 64]
  else if n < 65536 then [224 + n / 4096, 128 + n / 64 % 64, 128 + n % 64]
  else [240 + n / 262144, 128 + n / 4096 % 64, 128 + n / 64 % 64, 128 + n % 64]

/-- Characters `encodeURIComponent` leaves unescaped: ASCII alphanumerics
and `- _ . ! ~ * ( )` and the apostrophe (given by code point). -/
def uriUnreserved (c : Char) : Bool :=
  (65 ≤ c.toNat && c.toNat ≤ 90) || (97 ≤ c.toNat && c.toNat ≤ 122) ||
  (48 ≤ c.toNat && c.toNat ≤ 57) ||
  [45, 95, 46, 33, 126, 42, 39, 40, 41].contains c.toNat

/-- Modelled from the spec: the JS builtin `encodeURIComponent`, which
percent-encodes every character outside the unreserved set using its UTF-8
bytes. -/
def encodeURIComponent (s : String) : String :=
  String.mk (s.data.flatMap (fun c =>
    if uriUnreserved c then [c]
    else (utf8Bytes c).flatMap (fun b => ['%', hexDigit (b / 16), hexDigit (b % 16)])))

/-- The second `getQueryString` implementation: identical to the one in
`hubSearchItems.ts` except values pass through `encodeURIComponent`. -/
def getQueryString (queryParams : List (String × QVal)) : String :=
  let result := String.intercalate "&"
    ((queryParams.filter (fun kv => qvalTruthy kv.2)).map
      (fun kv => kv.1 ++ "=" ++ encodeURIComponent (qvalToString kv.2)))
  if result == "" then "" else "?" ++ result

end UrlUtils

namespace Content

open HubJS

/-- The update-frequency enum from `content.ts`. -/
inductive UpdateFrequency where
  | continual
  | daily
  | weekly
  | fortnightly
  | monthly
  | quarterly
  | biannually
  | annually
  | asNeeded
  | irregular
  | notPlanned
  | unknown
  | semimonthly
deriving DecidableEq, Repr

/-- A `Date` constructed by `new Date(v)`: the embedding keeps the
constructor argument. -/
structure JsDate where
  arg : Json

/-- The slice of `IHubContent` that `content.ts` reads or writes. -/
structure HubContent where
  id : String
  owner : String
  type : String
  typeKeywords : Option (List String)
  hubType : String
  data : Option Json
  orgId : Option String
  metadata : Option Json
  layer : Option Json
  updateFrequency : Option UpdateFrequency
  updatedDate : Option JsDate
  updatedDateSource : Option String
  publishedDate : Option JsDate
  publishedDateSource : Option String

/-- Split a list of characters at every `.` (structural helper for dotted
property paths). -/
def splitDots : List Char → List (List Char)
  | [] => [[]]
  | c :: rest =>
    let r := splitDots rest
    if c = '.' then [] :: r
    else
      match r with
      | h :: t => (c :: h) :: t
      | [] => [[c]]

/-- A dotted property path as its segment list (the JS `path.split(".")`). -/
def splitPath (s : String) : List String := (splitDots s.data).map String.mk

/-- Modelled from the spec: `getProp` applied to a content record.  The
first path segment selects the `metadata` or `layer` member of the record,
and the rest walks the JSON document; paths into other members are not used
by `content.ts`. -/
def contentGetProp (content : HubContent) (path : String) : Option Json :=
  match splitPath path with
  | "metadata" :: rest =>
    match content.metadata with
    | some m => getPropPath m rest
    | none => none
  | "layer" :: rest =>
    match content.layer with
    | some l => getPropPath l rest
    | none => none
  | _ => none

/-- Modelled from the spec: `cloneObject` from `@esri/hub-common` deep-clones
a JSON-shaped value; on pure values a deep clone is the value itself. -/
def cloneObject (content : HubContent) : HubContent := content

/-- The keys of the `IMetadataPaths` table. -/
inductive MetaKey where
  | updateFrequency
  | reviseDate
  | pubDate
  | createDate

/-- `getMetadataPath`: the metadata-path lookup table. -/
def getMetadataPath : MetaKey → String
  | .updateFrequency =>
    "metadata.metadata.dataIdInfo.resMaint.maintFreq.MaintFreqCd.@_value"
  | .reviseDate => "metadata.metadata.dataIdInfo.idCitation.date.reviseDate"
  | .pubDate => "metadata.metadata.dataIdInfo.idCitation.date.pubDate"
  | .createDate => "metadata.metadata.dataIdInfo.idCitation.date.createDate"

/-- `getValueFromMetadata`: `path && getProp(content, path)`. -/
def getValueFromMetadata (content : HubContent) (identifier : MetaKey) : Option Json :=
  let path := getMetadataPath identifier
  if path == "" then none else contentGetProp content path

/-- The `updateFrequencyMap` from `_enrichDates`: JS object indexing yields
`undefined` (`none`) for keys outside `"001"`..`"013"`. -/
def updateFrequencyMap : String → Option UpdateFrequency
  | "001" => some .continual
  | "002" => some .daily
  | "003" => some .weekly
  | "004" => some .fortnightly
  | "005" => some .monthly
  | "006" => some .quarterly
  | "007" => some .biannually
  | "008" => some .annually
  | "009" => some .asNeeded
  | "010" => some .irregular
  | "011" => some .notPlanned
  | "012" => some .unknown
  | "013" => some .semimonthly
  | _ => none

/-- `if (v)` on a possibly-undefined JSON value: yields the value exactly
when it is defined and truthy. -/
def truthyVal (v : Option Json) : Option Json :=
  match v with
  | some j => if jsTruthy j then some j else none
  | none => none

/-- `_enrichDates`: clone the content, then apply the update-frequency
mapping and the updated/published date precedence rules. -/
def _enrichDates (content : HubContent) : HubContent :=
  let newContent := cloneObject content
  let updatedFrequencyValue := getValueFromMetadata newContent .updateFrequency
  let newContent :=
    match truthyVal updatedFrequencyValue with
    | some v =>
      { newContent with updateFrequency := updateFrequencyMap (jsonToKeyString v) }
    | none => newContent
  let reviseDate := getValueFromMetadata newContent .reviseDate
  let lastEditDate := contentGetProp newContent "layer.editingInfo.lastEditDate"
  let newContent :=
    match truthyVal reviseDate, truthyVal lastEditDate with
    | some v, _ =>
      { newContent with
        updatedDate := some ⟨v⟩
        updatedDateSource := some (getMetadataPath .reviseDate) }
    | none, some v =>
      { newContent with
        updatedDate := some ⟨v⟩
        updatedDateSource := some "layer.editingInfo.lastEditDate" }
    | none, none => newContent
  let pubDate := getValueFromMetadata newContent .pubDate
  let createDate := getValueFromMetadata newContent .createDate
  let newContent :=
    match truthyVal pubDate, truthyVal createDate with
    | some v, _ =>
      { newContent with
        publishedDate := some ⟨v⟩
        publishedDateSource := some (getMetadataPath .pubDate) }
    | none, some v =>
      { newContent with
        publishedDate := some ⟨v⟩
        publishedDateSource := some (getMetadataPath .createDate) }
    | none, none => newContent
  newContent

/-- A two-slot object store replaying `_enrichDates` statement by
statement: slot `contentObj` holds the caller's object and slot
`newContentObj` holds the distinct object allocated by `cloneObject`.
Every assignment in the source targets `newContent`, so every store update
here writes the `newContentObj` slot; the function returns the final store
and the returned reference's value. -/
structure EnrichStore where
  contentObj : HubContent
  newContentObj : HubContent

/-- The store-level rendering of `_enrichDates`.  Returns the final store
paired with the value of the returned object. -/
def _enrichDatesStore (content : HubContent) : EnrichStore × HubContent :=
  let s0 : EnrichStore := { contentObj := content, newContentObj := cloneObject content }
  let updatedFrequencyValue := getValueFromMetadata s0.newContentObj .updateFrequency
  let s1 :=
    match truthyVal updatedFrequencyValue with
    | some v =>
      { s0 with newContentObj :=
          { s0.newContentObj with
            updateFrequency := updateFrequencyMap (jsonToKeyString v) } }
    | none => s0
  let reviseDate := getValueFromMetadata s1.newContentObj .reviseDate
  let lastEditDate := contentGetProp s1.newContentObj "layer.editingInfo.lastEditDate"
  let s2 :=
    match truthyVal reviseDate, truthyVal lastEditDate with
    | some v, _ =>
      { s1 with newContentObj :=
          { s1.newContentObj with
            updatedDate := some ⟨v⟩
            updatedDateSource := some (getMetadataPath .reviseDate) } }
    | none, some v =>
      { s1 with newContentObj :=
          { s1.newContentObj with
            updatedDate := some ⟨v⟩
            updatedDateSource := some "layer.editingInfo.lastEditDate" } }
    | none, none => s1
  let pubDate := getValueFromMetadata s2.newContentObj .pubDate
  let createDate := getValueFromMetadata s2.newContentObj .createDate
  let s3 :=
    match truthyVal pubDate, truthyVal createDate with
    | some v, _ =>
      { s2 with newContentObj :=
          { s2.newContentObj with
            publishedDate := some ⟨v⟩
            publishedDateSource := some (getMetadataPath .pubDate) } }
    | none, some v =>
      { s2 with newContentObj :=
          { s2.newContentObj with
            publishedDate := some ⟨v⟩
            publishedDateSource := some (getMetadataPath .createDate) } }
    | none, none => s2
  (s3, s3.newContentObj)

/-- Claim-side characterization for C5: the enriched record computed
directly from lookups on the input — `updateFrequency` set through the
code mapping only when the maintenance-frequency code is present,
`updatedDate`/`updatedDateSource` overridden by the metadata `reviseDate`
when present, else by `layer.editingInfo.lastEditDate` when present, else
unchanged, and `publishedDate`/`publishedDateSource` overridden by the
metadata `pubDate` when present, else the metadata `createDate` when
present, else unchanged. -/
def enrichDatesSpec (c : HubContent) : HubContent :=
  let ufv := truthyVal (getValueFromMetadata c .updateFrequency)
  let rd := truthyVal (getValueFromMetadata c .reviseDate)
  let le := truthyVal (contentGetProp c "layer.editingInfo.lastEditDate")
  let pd := truthyVal (getValueFromMetadata c .pubDate)
  let cd := truthyVal (getValueFromMetadata c .createDate)
  { c with
    updateFrequency :=
      match ufv with
      | some v => updateFrequencyMap (jsonToKeyString v)
      | none => c.updateFrequency
    updatedDate :=
      match rd, le with
      | some v, _ => some ⟨v⟩
      | none, some v => some ⟨v⟩
      | none, none => c.updatedDate
    updatedDateSource :=
      match rd, le with
      | some _, _ => some (getMetadataPath .reviseDate)
      | none, some _ => some "layer.editingInfo.lastEditDate"
      | none, none => c.updatedDateSource
    publishedDate :=
      match pd, cd with
      | some v, _ => some ⟨v⟩
      | none, some v => some ⟨v⟩
      | none, none => c.publishedDate
    publishedDateSource :=
      match pd, cd with
      | some _, _ => some (getMetadataPath .pubDate)
      | none, some _ => some (getMetadataPath .createDate)
      | none, none => c.publishedDateSource }

/-- Modelled from the spec: `includes` from `@esri/hub-common` is array
membership. -/
def includes (arr : List String) (x : String) : Bool := arr.contains x

/-- `shouldFetchData`: only `"template"` and `"solution"` hub types. -/
def shouldFetchData (hubType : String) : Bool :=
  includes ["template", "solution"] hubType

/-- JS `indexOf` on a string array: index of the first occurrence, `-1`
when absent. -/
def jsIndexOf (arr : List String) (x : String) : Int :=
  match arr.findIdx? (fun y => y == x) with
  | some i => (i : Int)
  | none => -1

/-- `isHubCreatedContent`: a `"Web Map"` whose type keywords meet the Hub
keywords. -/
def isHubCreatedContent (content : HubContent) : Bool :=
  let hubTypeKeywords := ["Enterprise Sites", "ArcGIS Hub"]
  let contentTypeKeywords := content.typeKeywords.getD []
  content.type == "Web Map" &&
    contentTypeKeywords.any (fun typeKeyword =>
      jsIndexOf hubTypeKeywords typeKeyword > -1)

/-- `!content.orgId`: the orgId is `undefined` or the empty string. -/
def orgIdFalsy (orgId : Option String) : Bool :=
  match orgId with
  | some s => s == ""
  | none => true

/-- `shouldFetchOrgId`: no truthy orgId and Hub-created content. -/
def shouldFetchOrgId (content : HubContent) : Bool :=
  orgIdFalsy content.orgId && isHubCreatedContent content

/-- Modelled from the spec: `_fetchContentProperties` from
`packages/content/src/portal.ts` (not under `src/`) fetches each requested
property and merges the results onto the content record. -/
def _fetchContentProperties (dataFetched : Option Json) (orgIdFetched : Option String)
    (content : HubContent) : HubContent :=
  let c1 :=
    match dataFetched with
    | some d => { content with data := some d }
    | none => content
  match orgIdFetched with
  | some g => { c1 with orgId := some g }
  | none => c1

/-- The observable behaviour of `enrichContent`: which properties were
fetched and the resulting content. -/
structure EnrichTrace where
  fetchedData : Bool
  fetchedOrgId : Bool
  result : HubContent

/-- `enrichContent`: decide which properties to fetch, fetch and merge them
(`getItemData` and `getUser().orgId` results are oracle parameters), then
apply `_enrichDates`. -/
def enrichContent (content : HubContent) (itemDataOracle : Json)
    (ownerOrgIdOracle : String) : EnrichTrace :=
  let wantData := !jsTruthyOpt content.data && shouldFetchData content.hubType
  let wantOrgId := shouldFetchOrgId content
  let fetched :=
    if wantData == false && wantOrgId == false then content
    else
      _fetchContentProperties
        (if wantData then some itemDataOracle else none)
        (if wantOrgId then some ownerOrgIdOracle else none)
        content
  { fetchedData := wantData, fetchedOrgId := wantOrgId,
    result := _enrichDates fetched }

/-- The observable behaviour of `getContentById`: the settled promise and
whether `getContentFromPortal` was called. -/
structure GetByIdTrace (E C : Type) where
  result : Except E C
  portalAttempted : Bool

/-- `getContentById`: when `options.isPortal` is truthy, fetch from the
portal by parsed item id; otherwise fetch from the Hub API and, on
rejection, fall back to the portal only when the identifier is not a slug,
re-rejecting with the original error when it is.  The content is then
enriched.  The three fetches and `enrichContent` are oracle parameters, as
is `isSlug` (defined in `./slugs`, not under `src/`). -/
def getContentById {E C : Type}
    (getContentFromHubRes : Except E C)
    (getContentFromPortalRes : Except E C)
    (getContentFromPortalByItemIdRes : Except E C)
    (enrich : C → Except E C)
    (isSlug : String → Bool)
    (identifier : String) (isPortalOpt : Bool) : GetByIdTrace E C :=
  let fetched : Except E C × Bool :=
    if isPortalOpt then (getContentFromPortalByItemIdRes, true)
    else
      match getContentFromHubRes with
      | .ok content => (.ok content, false)
      | .error e =>
        if !isSlug identifier then (getContentFromPortalRes, true)
        else (.error e, false)
  { result := fetched.1.bind enrich, portalAttempted := fetched.2 }

end Content

namespace FollowersUiSchema

open HubJS

/-- The slice of `EntityEditorOptions` (cast to `IHubGroup`) that the
followers-group UI-schema module can observe: the schema reads only
`isSharedUpdate`; the other members stand for the rest of the entity. -/
structure EditorOptions where
  name : Option String
  summary : Option String
  isSharedUpdate : Bool

/-- `UiSchemaRuleEffects.DISABLE`. -/
def effectDisable : String := "DISABLE"

/-- `UiSchemaRuleEffects.HIDE`. -/
def effectHide : String := "HIDE"

/-- `buildUiSchema` for the followers group: a literal nested UI-schema
document parameterized by the i18n scope and the entity's `isSharedUpdate`
flag.  The `context` argument is accepted (at any type) and unused, as in
the source. -/
def buildUiSchema {Ctx : Type} (i18nScope : String) (options : EditorOptions)
    (_context : Ctx) : Json :=
  let entity := options
  .obj [
    ("type", .str "Layout"),
    ("elements", .arr [
      .obj [
        ("type", .str "Section"),
        ("options", .obj [("section", .str "stepper"), ("scale", .str "l")]),
        ("elements", .arr [
          .obj [
            ("type", .str "Section"),
            ("labelKey", .str s!"{i18nScope}.sections.details.label"),
            ("options", .obj [("section", .str "step")]),
            ("elements", .arr [
              .obj [
                ("labelKey", .str s!"{i18nScope}.fields.name.label"),
                ("scope", .str "/properties/name"),
                ("type", .str "Control"),
                ("options", .obj [
                  ("messages", .arr [
                    .obj [
                      ("type", .str "ERROR"),
                      ("keyword", .str "required"),
                      ("icon", .bool true),
                      ("labelKey", .str s!"{i18nScope}.fields.name.requiredError")],
                    .obj [
                      ("type", .str "ERROR"),
                      ("keyword", .str "maxLength"),
                      ("icon", .bool true),
                      ("labelKey", .str s!"{i18nScope}.fields.name.maxLengthError")]])])],
              .obj [
                ("labelKey", .str s!"{i18nScope}.fields.summary.label"),
                ("scope", .str "/properties/summary"),
                ("type", .str "Control"),
                ("options", .obj [
                  ("control", .str "hub-field-input-input"),
                  ("type", .str "textarea"),
                  ("rows", .num 4),
                  ("messages", .arr [
                    .obj [
                      ("type", .str "ERROR"),
                      ("keyword", .str "maxLength"),
                      ("icon", .bool true),
                      ("labelKey", .str s!"{i18nScope}.fields.summary.maxLengthError")]])])]])],
          .obj [
            ("type", .str "Section"),
            ("labelKey", .str s!"{i18nScope}.sections.membershipAccess.label"),
            ("options", .obj [("section", .str "step")]),
            ("rule", .obj [
              ("effect", .str effectDisable),
              ("condition", .obj [
                ("scope", .str "/properties/name"),
                ("schema", .obj [("const", .str "")])])]),
            ("elements", .arr [
              .obj [
                ("scope", .str "/properties/isSharedUpdate"),
                ("type", .str "Control"),
                ("rule", .obj [
                  ("effect", .str effectHide),
                  ("condition", .obj [
                    ("scope", .str "/properties/isSharedUpdate"),
                    ("schema", .obj [("const", .bool false)])])])],
              .obj [
                ("labelKey", .str s!"{i18nScope}.fields.membershipAccess.label"),
                ("scope", .str "/properties/membershipAccess"),
                ("type", .str "Control"),
                ("options", .obj [
                  ("control", .str "hub-field-input-radio"),
                  ("labels", .arr [
                    .str s!"\x7b\x7b{i18nScope}.fields.membershipAccess.org.description:translate\x7d\x7d",
                    .str s!"\x7b\x7b{i18nScope}.fields.membershipAccess.collab.description:translate\x7d\x7d",
                    .str s!"\x7b\x7b{i18nScope}.fields.membershipAccess.createFollowers.any:translate\x7d\x7d"]),
                  ("disabled", .arr [.bool false, .bool false, .bool entity.isSharedUpdate])])],
              .obj [
                ("labelKey", .str s!"{i18nScope}.fields.contributeContent.label"),
                ("scope", .str "/properties/isViewOnly"),
                ("type", .str "Control"),
                ("options", .obj [
                  ("control", .str "hub-field-input-radio"),
                  ("labels", .arr [
                    .str s!"\x7b\x7b{i18nScope}.fields.contributeContent.members.description:translate\x7d\x7d",
                    .str s!"\x7b\x7b{i18nScope}.fields.contributeContent.createFollowers.admins:translate\x7d\x7d"])])]])]])]])]

end FollowersUiSchema

namespace EventsFilters

/-- A predicate field value in the events catalog filters: a string, an
array of strings, a boolean, a number, or an `IDateRange<string | number>`
(dates are modelled by their string form). -/
inductive EvVal where
  | str (s : String)
  | strs (l : List String)
  | bool (b : Bool)
  | num (n : Int)
  | dateRange (fromV toV : Option String)
deriving DecidableEq, Repr

/-- An `IPredicate` in an events filter: ordered key/value entries. -/
def EvPredicate := List (String × EvVal)

/-- An `IFilter` from `IHubCatalog`: its list of predicates. -/
structure EvFilter where
  predicates : List EvPredicate

/-- JS string coercion of a predicate value (`.toString()` and template
interpolation). -/
def evToString : EvVal → String
  | .str s => s
  | .strs l => String.intercalate "," l
  | .bool true => "true"
  | .bool false => "false"
  | .num n => toString n
  | .dateRange _ _ => "[object Object]"

/-- The flat string forms of a predicate value, for comma-joined
option strings (arrays contribute each element). -/
def evToStrings : EvVal → List String
  | .strs l => l
  | v => [evToString v]

/-- Modelled from the spec: `getPredicateValuesByKey` (not under `src/`)
collects, across every filter's predicates, the value present under the
given key. -/
def getPredicateValuesByKey (filters : List EvFilter) (key : String) : List EvVal :=
  filters.flatMap (fun filter =>
    filter.predicates.filterMap (fun predicate =>
      (predicate.find? (fun kv => kv.1 == key)).map (fun kv => kv.2)))

/-- Modelled from the spec: `getOptionalPredicateStringsByKey` (not under
`src/`) renders the values collected for a key as one comma-joined string,
or `undefined` when there are none. -/
def getOptionalPredicateStringsByKey (filters : List EvFilter) (key : String) :
    Option String :=
  let strs := (getPredicateValuesByKey filters key).flatMap evToStrings
  if strs.isEmpty then none else some (String.intercalate "," strs)

/-- The `if (x?.length) processedFilters.k = x` idiom: keep the optional
string only when it is present and non-empty. -/
def optStrGuard (o : Option String) : Option String :=
  match o with
  | some s => if s.length != 0 then some s else none
  | none => none

/-- The slice of `Partial<GetEventsParams>` populated by `processFilters`.
Unset keys are `none`. -/
structure GetEventsParams where
  access : Option String := none
  canEdit : Option String := none
  entityIds : Option String := none
  entityTypes : Option String := none
  eventIds : Option String := none
  title : Option String := none
  orgId : Option String := none
  categories : Option String := none
  tags : Option String := none
  sharedToGroups : Option String := none
  readGroups : Option String := none
  editGroups : Option String := none
  withoutReadGroups : Option String := none
  withoutEditGroups : Option String := none
  attendanceTypes : Option String := none
  createdByIds : Option String := none
  status : Option String := none
  startDateTimeBefore : Option String := none
  startDateTimeAfter : Option String := none
  endDateTimeBefore : Option String := none
  endDateTimeAfter : Option String := none
deriving DecidableEq, Repr

/-- Modelled from the spec: the JS `String.prototype.toLowerCase`, mapping
ASCII uppercase letters to lowercase. -/
def jsToLowerCase (s : String) : String :=
  String.mk (s.data.map (fun c =>
    if 65 ≤ c.toNat && c.toNat ≤ 90 then Char.ofNat (c.toNat + 32) else c))

/-- `EventStatus.PLANNED` (orval enum value). -/
def eventStatusPlanned : String := "planned"

/-- `EventStatus.CANCELED` (orval enum value). -/
def eventStatusCanceled : String := "canceled"

/-- The `to` member of a date-range value (`undefined` for other shapes). -/
def rangeTo : EvVal → Option String
  | .dateRange _ toV => toV
  | _ => none

/-- The `from` member of a date-range value (`undefined` for other
shapes). -/
def rangeFrom : EvVal → Option String
  | .dateRange fromV _ => fromV
  | _ => none

/-- `v && new Date(v).toISOString()`: apply the ISO conversion when the
bound is present and truthy. -/
def rangeBound (toISO : String → String) (bound : Option String) : Option String :=
  match bound with
  | some s => if s != "" then some (toISO s) else none
  | none => none

/-- The four date bounds that the `occurrence` pass may overwrite. -/
structure DateWindow where
  startDateTimeBefore : Option String
  startDateTimeAfter : Option String
  endDateTimeBefore : Option String
  endDateTimeAfter : Option String

/-- One step of the `occurrence.forEach` switch. -/
def applyOccurrence (now : String) (acc : DateWindow) (o : String) : DateWindow :=
  if o == "upcoming" then { acc with startDateTimeAfter := some now }
  else if o == "past" then { acc with endDateTimeBefore := some now }
  else if o == "inProgress" then
    { acc with startDateTimeBefore := some now, endDateTimeAfter := some now }
  else acc

/-- `processFilters`: builds a `Partial<GetEventsParams>` from a filter
list.  Each mutation block of the source computes one output key here.
External effects are oracle parameters: `toISO` is
`new Date(v).toISOString()`, `now` is `new Date().toISOString()`, and
`searchGroupsOracle` is the `searchGroups` call of the `notGroup` branch,
returning `(id, isUpdateGroup)` pairs. -/
def processFilters (toISO : String → String) (now : String)
    (searchGroupsOracle : List String → List (String × Bool))
    (filters : List EvFilter) : GetEventsParams :=
  let access := optStrGuard (getOptionalPredicateStringsByKey filters "access")
  let canEdit :=
    match getPredicateValuesByKey filters "canEdit" with
    | v :: _ => some (evToString v)
    | [] => none
  let entityIds := optStrGuard (getOptionalPredicateStringsByKey filters "entityId")
  let entityTypes := optStrGuard (getOptionalPredicateStringsByKey filters "entityType")
  let eventIds := optStrGuard (getOptionalPredicateStringsByKey filters "id")
  let title :=
    match getPredicateValuesByKey filters "term" with
    | v :: _ => some (evToString v)
    | [] => none
  let orgId :=
    match getPredicateValuesByKey filters "orgId" with
    | v :: _ => some (evToString v)
    | [] => none
  let categories := optStrGuard (getOptionalPredicateStringsByKey filters "categories")
  let tags := optStrGuard (getOptionalPredicateStringsByKey filters "tags")
  let groupIds := getOptionalPredicateStringsByKey filters "group"
  let sharedToGroups := optStrGuard groupIds
  let readGroups :=
    match optStrGuard groupIds with
    | some _ => none
    | none => optStrGuard (getOptionalPredicateStringsByKey filters "readGroupId")
  let editGroups :=
    match optStrGuard groupIds with
    | some _ => none
    | none => optStrGuard (getOptionalPredicateStringsByKey filters "editGroupId")
  let notGroupIds := (getPredicateValuesByKey filters "notGroup").map evToString
  let withoutReadGroups :=
    if notGroupIds.length != 0 then
      let results := searchGroupsOracle notGroupIds
      let notReadGroupIds := (results.filter (fun g => !g.2)).map (fun g => g.1)
      if notReadGroupIds.length != 0 then
        some (String.intercalate "," notReadGroupIds)
      else none
    else optStrGuard (getOptionalPredicateStringsByKey filters "notReadGroupId")
  let withoutEditGroups :=
    if notGroupIds.length != 0 then
      let results := searchGroupsOracle notGroupIds
      let notEditGroupIds := (results.filter (fun g => g.2)).map (fun g => g.1)
      if notEditGroupIds.length != 0 then
        some (String.intercalate "," notEditGroupIds)
      else none
    else optStrGuard (getOptionalPredicateStringsByKey filters "notEditGroupId")
  let attendanceTypes :=
    optStrGuard (getOptionalPredicateStringsByKey filters "attendanceType")
  let createdByIds := optStrGuard (getOptionalPredicateStringsByKey filters "owner")
  let status :=
    match optStrGuard (getOptionalPredicateStringsByKey filters "status") with
    | some s => some s
    | none =>
      some (String.intercalate ","
        ([eventStatusPlanned, eventStatusCanceled].map jsToLowerCase))
  let startDateRangeVals := getPredicateValuesByKey filters "startDateRange"
  let startWindow : Option String × Option String :=
    match startDateRangeVals with
    | v :: _ => (rangeBound toISO (rangeTo v), rangeBound toISO (rangeFrom v))
    | [] =>
      (match getPredicateValuesByKey filters "startDateBefore" with
       | v :: _ => some (toISO (evToString v))
       | [] => none,
       match getPredicateValuesByKey filters "startDateAfter" with
       | v :: _ => some (toISO (evToString v))
       | [] => none)
  let endDateRangeVals := getPredicateValuesByKey filters "endDateRange"
  let endWindow : Option String × Option String :=
    match endDateRangeVals with
    | v :: _ => (rangeBound toISO (rangeTo v), rangeBound toISO (rangeFrom v))
    | [] =>
      (match getPredicateValuesByKey filters "endDateBefore" with
       | v :: _ => some (toISO (evToString v))
       | [] => none,
       match getPredicateValuesByKey filters "endDateAfter" with
       | v :: _ => some (toISO (evToString v))
       | [] => none)
  let occurrence := (getPredicateValuesByKey filters "occurrence").map evToString
  let window := occurrence.foldl (applyOccurrence now)
    { startDateTimeBefore := startWindow.1, startDateTimeAfter := startWindow.2,
      endDateTimeBefore := endWindow.1, endDateTimeAfter := endWindow.2 }
  { access := access, canEdit := canEdit, entityIds := entityIds,
    entityTypes := entityTypes, eventIds := eventIds, title := title,
    orgId := orgId, categories := categories, tags := tags,
    sharedToGroups := sharedToGroups, readGroups := readGroups,
    editGroups := editGroups, withoutReadGroups := withoutReadGroups,
    withoutEditGroups := withoutEditGroups, attendanceTypes := attendanceTypes,
    createdByIds := createdByIds, status := status,
    startDateTimeBefore := window.startDateTimeBefore,
    startDateTimeAfter := window.startDateTimeAfter,
    endDateTimeBefore := window.endDateTimeBefore,
    endDateTimeAfter := window.endDateTimeAfter }

end EventsFilters

namespace HubSearchItems

/-- Claim-side rendering for C10: the `key=value` pairs of the truthy
entries, in order. -/
def truthyPairs (queryParams : List (String × QVal)) : List String :=
  (queryParams.filter (fun kv => qvalTruthy kv.2)).map
    (fun kv => kv.1 ++ "=" ++ qvalToString kv.2)

/-- Claim-side rendering for C2 of an object-valued field: the
`field IN (any...)` section, the `field=v` conjuncts for `all`, and the
`field NOT IN (not...)` section, joined by `" AND "` (an `all` list with no
conjuncts contributes nothing). -/
def specObjSection (field : String) (anyV allV notV : Option (List String)) :
    String :=
  let anys :=
    match anyV with
    | some l => [field ++ " IN (" ++ String.intercalate ", " l ++ ")"]
    | none => []
  let alls :=
    match allV with
    | some [] => []
    | some l => [String.intercalate " AND " (l.map (fun v => field ++ "=" ++ v))]
    | none => []
  let nots :=
    match notV with
    | some l => [field ++ " NOT IN (" ++ String.intercalate ", " l ++ ")"]
    | none => []
  String.intercalate " AND " (anys ++ alls ++ nots)

/-- Claim-side rendering for C2 of a predicate's sections: one section per
field, with falsy values dropped, by direct recursion. -/
def specSections : List (String × PredVal) → List String
  | [] => []
  | (field, v) :: rest =>
    match v with
    | .str s =>
      if s = "" then specSections rest
      else (field ++ "=" ++ s) :: specSections rest
    | .arr l =>
      (field ++ " IN (" ++ String.intercalate ", " l ++ ")") :: specSections rest
    | .obj anyV allV notV =>
      specObjSection field anyV allV notV :: specSections rest
    | .undef => specSections rest

/-- Claim-side rendering for C2 of a predicate: its sections joined by
`" AND "`, parenthesized. -/
def specFormatPredicate (predicate : Predicate) : String :=
  "(" ++ String.intercalate " AND " (specSections predicate) ++ ")"

/-- Claim-side rendering for C2 of a filter block: predicates joined by the
filter's operation (defaulting to `"OR"`), parenthesized. -/
def specFormatFilterBlock (filter : Filter) : String :=
  "(" ++ String.intercalate (" " ++ filterOperation filter.operation ++ " ")
    (filter.predicates.map specFormatPredicate) ++ ")"

/-- Claim-side rendering for C2 of the whole filter query parameter: the
filter blocks joined by `" AND "`. -/
def specFilterQueryParam (query : Query) : String :=
  String.intercalate " AND " (query.filters.map specFormatFilterBlock)

end HubSearchItems

/-! ## Theorems -/

namespace HubJS

theorem string_eq_empty_of_length {s : String} (h : s.length = 0) : s = "" :=
  String.ext (List.length_eq_zero.mp h)

theorem string_ne_empty_of_length {s : String} (h : 0 < s.length) : s ≠ "" := by
  intro he
  rw [he] at h
  simp at h

theorem intercalate_go_length (s : String) :
    ∀ (l : List String) (acc : String),
      acc.length ≤ (String.intercalate.go acc s l).length
  | [], _ => le_refl _
  | a :: as, acc => by
    calc acc.length ≤ (acc ++ s ++ a).length := by
          simp [String.length_append]
          omega
    _ ≤ _ := intercalate_go_length s as (acc ++ s ++ a)

theorem intercalate_cons_length (s a : String) (l : List String) :
    a.length ≤ (String.intercalate s (a :: l)).length :=
  intercalate_go_length s l a

theorem intercalate_cons_ne_empty (s a : String) (l : List String)
    (ha : 0 < a.length) : String.intercalate s (a :: l) ≠ "" :=
  string_ne_empty_of_length (lt_of_lt_of_le ha (intercalate_cons_length s a l))

end HubJS

/-- C8: `searchOgcAggregations` ignores its query and options and resolves
to `null` for every input; consequently `hubSearchItems` resolves to `null`
(rather than a search response) whenever `options.aggFields` is
non-empty. -/
theorem searchOgcAggregations_null :
    (∀ (R : Type) (query : HubSearchItems.Query)
      (options : HubSearchItems.SearchOptions),
      HubSearchItems.searchOgcAggregations (R := R) query options = none) ∧
    (∀ (R : Type)
      (oracle : HubSearchItems.Query → HubSearchItems.SearchOptions → Option R)
      (query : HubSearchItems.Query) (options : HubSearchItems.SearchOptions)
      (l : List String), options.aggFields = some l → l ≠ [] →
      HubSearchItems.hubSearchItems oracle query options = none) := by
  refine ⟨fun _ _ _ => rfl, fun R oracle query options l h hl => ?_⟩
  have ht : HubSearchItems.aggFieldsTruthy options = true := by
    simp [HubSearchItems.aggFieldsTruthy, h, List.length_eq_zero]
    exact hl
  simp [HubSearchItems.hubSearchItems, ht, HubSearchItems.searchOgcAggregations]

/-- C8 witness: with aggregation fields requested, `hubSearchItems`
resolves to `null` even though the items oracle would return a response. -/
theorem searchOgcAggregations_null_witness :
    HubSearchItems.hubSearchItems (fun _ _ => some (42 : Nat)) ⟨[]⟩
      ⟨some ["type"]⟩ = none :=
  searchOgcAggregations_null.2 Nat (fun _ _ => some 42) ⟨[]⟩ ⟨some ["type"]⟩
    ["type"] rfl (by decide)

/-- C6: `buildUiSchema` is pure: two invocations with equal inputs yield
equal documents, and the document depends only on the i18n scope and the
entity's `isSharedUpdate` flag — the context argument (at any type) and
every other entity member are ignored. -/
theorem buildUiSchema_pure :
    (∀ (Ctx : Type) (i18nScope : String)
      (options : FollowersUiSchema.EditorOptions) (context : Ctx),
      FollowersUiSchema.buildUiSchema i18nScope options context =
        FollowersUiSchema.buildUiSchema i18nScope options context) ∧
    (∀ (Ctx₁ Ctx₂ : Type) (i18nScope : String)
      (o₁ o₂ : FollowersUiSchema.EditorOptions) (c₁ : Ctx₁) (c₂ : Ctx₂),
      o₁.isSharedUpdate = o₂.isSharedUpdate →
      FollowersUiSchema.buildUiSchema i18nScope o₁ c₁ =
        FollowersUiSchema.buildUiSchema i18nScope o₂ c₂) := by
  refine ⟨fun _ _ _ _ => rfl, fun Ctx₁ Ctx₂ scope o₁ o₂ c₁ c₂ h => ?_⟩
  simp only [FollowersUiSchema.buildUiSchema, h]

/-- C6 witness: two calls with different contexts (even of different
types) and entities differing outside `isSharedUpdate` produce the same
document. -/
theorem buildUiSchema_pure_witness :
    FollowersUiSchema.buildUiSchema "scope" ⟨none, none, true⟩ (0 : Nat) =
      FollowersUiSchema.buildUiSchema "scope" ⟨some "n", some "s", true⟩ "ctx" :=
  buildUiSchema_pure.2 Nat String "scope" ⟨none, none, true⟩
    ⟨some "n", some "s", true⟩ 0 "ctx" rfl

namespace Content

open HubJS

theorem truthyVal_none : truthyVal none = none := rfl

theorem gVM_reduce (c : HubContent) (k : MetaKey) :
    getValueFromMetadata c k =
      (match c.metadata with
       | some mm => HubJS.getPropPath mm
          (match k with
           | .updateFrequency =>
             ["metadata", "dataIdInfo", "resMaint", "maintFreq", "MaintFreqCd",
              "@_value"]
           | .reviseDate =>
             ["metadata", "dataIdInfo", "idCitation", "date", "reviseDate"]
           | .pubDate =>
             ["metadata", "dataIdInfo", "idCitation", "date", "pubDate"]
           | .createDate =>
             ["metadata", "dataIdInfo", "idCitation", "date", "createDate"])
       | none => none) := by
  obtain ⟨i, o, t, tk, hb, d, g, m, l, uf, ud, uds, pd, pds⟩ := c
  cases k <;> cases m <;> rfl

theorem cgp_reduce (c : HubContent) :
    contentGetProp c "layer.editingInfo.lastEditDate" =
      (match c.layer with
       | some lj => HubJS.getPropPath lj ["editingInfo", "lastEditDate"]
       | none => none) := by
  obtain ⟨i, o, t, tk, hb, d, g, m, l, uf, ud, uds, pd, pds⟩ := c
  cases l <;> rfl

theorem enrichDates_eq_spec (c : HubContent) :
    _enrichDates c = enrichDatesSpec c := by
  obtain ⟨i, o, t, tk, hb, d, g, m, l, uf, ud, uds, pd, pds⟩ := c
  cases m with
  | none =>
    cases l with
    | none => rfl
    | some lj =>
      cases h3 : truthyVal (HubJS.getPropPath lj ["editingInfo", "lastEditDate"]) <;>
        simp [_enrichDates, enrichDatesSpec, cloneObject, truthyVal_none,
          gVM_reduce, cgp_reduce, h3]
  | some mm =>
    cases l with
    | none =>
      cases h1 : truthyVal (HubJS.getPropPath mm
        ["metadata", "dataIdInfo", "resMaint", "maintFreq", "MaintFreqCd",
         "@_value"]) <;>
      cases h2 : truthyVal (HubJS.getPropPath mm
        ["metadata", "dataIdInfo", "idCitation", "date", "reviseDate"]) <;>
      cases h4 : truthyVal (HubJS.getPropPath mm
        ["metadata", "dataIdInfo", "idCitation", "date", "pubDate"]) <;>
      cases h5 : truthyVal (HubJS.getPropPath mm
        ["metadata", "dataIdInfo", "idCitation", "date", "createDate"]) <;>
        simp [_enrichDates, enrichDatesSpec, cloneObject, truthyVal_none,
          gVM_reduce, cgp_reduce, h1, h2, h4, h5]
    | some lj =>
      cases h1 : truthyVal (HubJS.getPropPath mm
        ["metadata", "dataIdInfo", "resMaint", "maintFreq", "MaintFreqCd",
         "@_value"]) <;>
      cases h2 : truthyVal (HubJS.getPropPath mm
        ["metadata", "dataIdInfo", "idCitation", "date", "reviseDate"]) <;>
      cases h3 : truthyVal (HubJS.getPropPath lj ["editingInfo", "lastEditDate"]) <;>
      cases h4 : truthyVal (HubJS.getPropPath mm
        ["metadata", "dataIdInfo", "idCitation", "date", "pubDate"]) <;>
      cases h5 : truthyVal (HubJS.getPropPath mm
        ["metadata", "dataIdInfo", "idCitation", "date", "createDate"]) <;>
        simp [_enrichDates, enrichDatesSpec, cloneObject, truthyVal_none,
          gVM_reduce, cgp_reduce, h1, h2, h3, h4, h5]

theorem keyword_test_eq : ∀ k : String,
    (decide (jsIndexOf ["Enterprise Sites", "ArcGIS Hub"] k > -1)) =
      (k == "Enterprise Sites" || k == "ArcGIS Hub") := by
  intro k
  by_cases h1 : k = "Enterprise Sites"
  · subst h1; decide
  · by_cases h2 : k = "ArcGIS Hub"
    · subst h2; decide
    · have b1 : (("Enterprise Sites" : String) == k) = false :=
        beq_eq_false_iff_ne.mpr (Ne.symm h1)
      have b2 : (("ArcGIS Hub" : String) == k) = false :=
        beq_eq_false_iff_ne.mpr (Ne.symm h2)
      have c1 : (k == ("Enterprise Sites" : String)) = false :=
        beq_eq_false_iff_ne.mpr h1
      have c2 : (k == ("ArcGIS Hub" : String)) = false :=
        beq_eq_false_iff_ne.mpr h2
      simp [jsIndexOf, b1, b2, c1, c2]

end Content

/-- C5: `_enrichDates` applies the fixed precedence rules of
`enrichDatesSpec` — `updatedDate`/`updatedDateSource` from the metadata
`reviseDate`, else `layer.editingInfo.lastEditDate`, else unchanged;
`publishedDate`/`publishedDateSource` from the metadata `pubDate`, else
`createDate`, else unchanged; `updateFrequency` through the
`"001"`..`"013"` mapping only when the code is present — with the
metadata-path lookup table and the sample mappings stated explicitly. -/
theorem enrichDates_precedence :
    ∀ c : Content.HubContent,
      Content._enrichDates c = Content.enrichDatesSpec c ∧
      Content.getMetadataPath .updateFrequency =
        "metadata.metadata.dataIdInfo.resMaint.maintFreq.MaintFreqCd.@_value" ∧
      Content.getMetadataPath .reviseDate =
        "metadata.metadata.dataIdInfo.idCitation.date.reviseDate" ∧
      Content.getMetadataPath .pubDate =
        "metadata.metadata.dataIdInfo.idCitation.date.pubDate" ∧
      Content.getMetadataPath .createDate =
        "metadata.metadata.dataIdInfo.idCitation.date.createDate" ∧
      Content.updateFrequencyMap "001" = some .continual ∧
      Content.updateFrequencyMap "003" = some .weekly :=
  fun c => ⟨Content.enrichDates_eq_spec c, rfl, rfl, rfl, rfl, rfl, rfl⟩

/-- C7: `_enrichDates` never mutates its argument: in the two-slot store
model that replays the source's writes (`cloneObject` allocating the
second, distinct slot), the caller's object is unchanged at the end and
the returned object is the enriched clone. -/
theorem enrichDates_no_mutation :
    ∀ c : Content.HubContent,
      (Content._enrichDatesStore c).1.contentObj = c ∧
      (Content._enrichDatesStore c).2 = Content._enrichDates c := by
  intro c
  obtain ⟨i, o, t, tk, hb, d, g, m, l, uf, ud, uds, pd, pds⟩ := c
  cases m with
  | none =>
    cases l with
    | none => exact ⟨rfl, rfl⟩
    | some lj =>
      cases h3 : Content.truthyVal
        (HubJS.getPropPath lj ["editingInfo", "lastEditDate"]) <;>
        simp [Content._enrichDatesStore, Content._enrichDates,
          Content.cloneObject, Content.truthyVal_none, Content.gVM_reduce,
          Content.cgp_reduce, h3]
  | some mm =>
    cases l with
    | none =>
      cases h1 : Content.truthyVal (HubJS.getPropPath mm
        ["metadata", "dataIdInfo", "resMaint", "maintFreq", "MaintFreqCd",
         "@_value"]) <;>
      cases h2 : Content.truthyVal (HubJS.getPropPath mm
        ["metadata", "dataIdInfo", "idCitation", "date", "reviseDate"]) <;>
      cases h4 : Content.truthyVal (HubJS.getPropPath mm
        ["metadata", "dataIdInfo", "idCitation", "date", "pubDate"]) <;>
      cases h5 : Content.truthyVal (HubJS.getPropPath mm
        ["metadata", "dataIdInfo", "idCitation", "date", "createDate"]) <;>
        simp [Content._enrichDatesStore, Content._enrichDates,
          Content.cloneObject, Content.truthyVal_none, Content.gVM_reduce,
          Content.cgp_reduce, h1, h2, h4, h5]
    | some lj =>
      cases h1 : Content.truthyVal (HubJS.getPropPath mm
        ["metadata", "dataIdInfo", "resMaint", "maintFreq", "MaintFreqCd",
         "@_value"]) <;>
      cases h2 : Content.truthyVal (HubJS.getPropPath mm
        ["metadata", "dataIdInfo", "idCitation", "date", "reviseDate"]) <;>
      cases h3 : Content.truthyVal
        (HubJS.getPropPath lj ["editingInfo", "lastEditDate"]) <;>
      cases h4 : Content.truthyVal (HubJS.getPropPath mm
        ["metadata", "dataIdInfo", "idCitation", "date", "pubDate"]) <;>
      cases h5 : Content.truthyVal (HubJS.getPropPath mm
        ["metadata", "dataIdInfo", "idCitation", "date", "createDate"]) <;>
        simp [Content._enrichDatesStore, Content._enrichDates,
          Content.cloneObject, Content.truthyVal_none, Content.gVM_reduce,
          Content.cgp_reduce, h1, h2, h3, h4, h5]

/-- C4: `enrichContent` fetches the item data iff `content.data` is absent
(falsy) and the hub type is `"template"` or `"solution"`; fetches the
owner's orgId iff `content.orgId` is absent (falsy) and the content is
Hub-created (a `"Web Map"` whose type keywords contain
`"Enterprise Sites"` or `"ArcGIS Hub"`); when neither holds the content is
passed through unchanged; and `_enrichDates` is applied in every case. -/
theorem enrichContent_fetch_conditions :
    ∀ (content : Content.HubContent) (itemData : HubJS.Json)
      (ownerOrgId : String),
      (Content.enrichContent content itemData ownerOrgId).fetchedData =
        (!HubJS.jsTruthyOpt content.data &&
          (content.hubType == "template" || content.hubType == "solution")) ∧
      (Content.enrichContent content itemData ownerOrgId).fetchedOrgId =
        (Content.orgIdFalsy content.orgId &&
          (content.type == "Web Map" &&
            (content.typeKeywords.getD []).any
              (fun k => k == "Enterprise Sites" || k == "ArcGIS Hub"))) ∧
      ((Content.enrichContent content itemData ownerOrgId).fetchedData = false →
        (Content.enrichContent content itemData ownerOrgId).fetchedOrgId = false →
        (Content.enrichContent content itemData ownerOrgId).result =
          Content._enrichDates content) := by
  intro content itemData ownerOrgId
  refine ⟨?_, ?_, ?_⟩
  · have hc : Content.includes ["template", "solution"] content.hubType =
        (content.hubType == "template" || content.hubType == "solution") := by
      simp only [Content.includes, List.contains_cons,
        show ([] : List String).contains content.hubType = false from rfl,
        Bool.or_false]
    exact congrArg (fun b => !HubJS.jsTruthyOpt content.data && b) hc
  · have funeq :
        (fun tk => decide
          (Content.jsIndexOf ["Enterprise Sites", "ArcGIS Hub"] tk > -1)) =
        (fun tk : String => tk == "Enterprise Sites" || tk == "ArcGIS Hub") :=
      funext Content.keyword_test_eq
    simp [Content.enrichContent, Content.shouldFetchOrgId,
      Content.isHubCreatedContent, funeq]
  · intro h1 h2
    have h1' : (!HubJS.jsTruthyOpt content.data &&
        Content.shouldFetchData content.hubType) = false := h1
    have h2' : Content.shouldFetchOrgId content = false := h2
    simp [Content.enrichContent, h1', h2']

/-- C4 witness: content with data absent but a non-template hub type and a
truthy orgId triggers no fetch, and the result is just the date-enriched
input. -/
theorem enrichContent_fetch_conditions_witness :
    (Content.enrichContent
      ⟨"id1", "owner1", "Feature Service", some ["kw"], "dataset", none,
        some "org1", none, none, none, none, none, none, none⟩
      HubJS.Json.null "org2").result =
    Content._enrichDates
      ⟨"id1", "owner1", "Feature Service", some ["kw"], "dataset", none,
        some "org1", none, none, none, none, none, none, none⟩ :=
  (enrichContent_fetch_conditions
    ⟨"id1", "owner1", "Feature Service", some ["kw"], "dataset", none,
      some "org1", none, none, none, none, none, none, none⟩
    HubJS.Json.null "org2").2.2 rfl rfl

/-- C1: with `options.isPortal` not set and the Hub fetch rejected,
`getContentById` attempts the portal fetch if and only if the identifier is
not a slug, and for a slug identifier the original error is propagated. -/
theorem getContentById_slug_fallback :
    ∀ (E C : Type) (e : E) (portalRes portalByIdRes : Except E C)
      (enrich : C → Except E C) (isSlug : String → Bool) (identifier : String),
      (Content.getContentById (.error e) portalRes portalByIdRes enrich isSlug
          identifier false).portalAttempted = !isSlug identifier ∧
      (isSlug identifier = true →
        (Content.getContentById (.error e) portalRes portalByIdRes enrich isSlug
            identifier false).result = .error e) := by
  intro E C e portalRes portalByIdRes enrich isSlug identifier
  cases h : isSlug identifier <;>
    simp [Content.getContentById, h, Except.bind]

namespace HubSearchItems

theorem append_ne_empty_right {a b : String} (hb : b ≠ "") : a ++ b ≠ "" := by
  intro h
  apply hb
  apply HubJS.string_eq_empty_of_length
  have h2 := congrArg String.length h
  simp [String.length_append] at h2
  omega

theorem append_ne_empty_left {a b : String} (ha : a ≠ "") : a ++ b ≠ "" := by
  intro h
  apply ha
  apply HubJS.string_eq_empty_of_length
  have h2 := congrArg String.length h
  simp [String.length_append] at h2
  omega

theorem sectionFor_obj_eq (field : String) (anyV allV notV : Option (List String)) :
    sectionFor field (.obj anyV allV notV) = specObjSection field anyV allV notV := by
  have heq : ("=" : String).length = 1 := by decide
  have hin : ∀ X : String, ((field ++ " IN (" ++ X ++ ")") != "") = true :=
    fun X => bne_iff_ne.mpr (append_ne_empty_right (by decide))
  have hnotin : ∀ X : String, ((field ++ " NOT IN (" ++ X ++ ")") != "") = true :=
    fun X => bne_iff_ne.mpr (append_ne_empty_right (by decide))
  have halls : ∀ (v : String) (rest : List String),
      ((String.intercalate " AND "
        ((field ++ "=" ++ v) :: List.map (fun w => field ++ "=" ++ w) rest)) != "") =
        true := by
    intro v rest
    apply bne_iff_ne.mpr
    apply HubJS.intercalate_cons_ne_empty
    have : (field ++ "=" ++ v).length = field.length + 1 + v.length := by
      simp [String.length_append, heq]
    omega
  have hnil : ((String.intercalate " AND " ([] : List String)) != "") = false := by
    decide
  rcases anyV with _ | la <;> rcases notV with _ | ln <;>
    rcases allV with _ | (_ | ⟨v, rest⟩) <;>
    simp [sectionFor, specObjSection, hin, hnotin, List.filter,
      List.filterMap] <;>
    (try rw [hnil]) <;> (try rw [halls])

theorem filter_map_sections (p : List (String × PredVal)) :
    ((p.filter (fun kv => predTruthy kv.2)).map
      (fun kv => sectionFor kv.1 kv.2)) = specSections p := by
  induction p with
  | nil => rfl
  | cons head rest ih =>
    obtain ⟨field, v⟩ := head
    rw [List.filter_cons]
    cases v with
    | str s =>
      by_cases hs : s = ""
      · subst hs
        rw [if_neg (by simp [predTruthy]), ih]
        simp [specSections]
      · rw [if_pos (by simp [predTruthy, hs]), List.map_cons, ih]
        simp [sectionFor, specSections, hs]
    | arr l =>
      rw [if_pos (by simp [predTruthy]), List.map_cons, ih]
      simp [sectionFor, specSections]
    | obj a al n =>
      rw [if_pos (by simp [predTruthy]), List.map_cons, ih]
      simp [specSections, sectionFor_obj_eq]
    | undef =>
      rw [if_neg (by simp [predTruthy]), ih]
      simp [specSections]

theorem formatPredicate_funext : formatPredicate = specFormatPredicate := by
  funext p
  simp [formatPredicate, specFormatPredicate, filter_map_sections]

theorem formatFilterBlock_funext : formatFilterBlock = specFormatFilterBlock := by
  funext f
  simp [formatFilterBlock, specFormatFilterBlock, formatPredicate_funext]

theorem truthyPairs_pos (qp : List (String × QVal)) :
    ∀ a ∈ truthyPairs qp, 0 < a.length := by
  intro a ha
  simp only [truthyPairs, List.mem_map] at ha
  obtain ⟨kv, _, rfl⟩ := ha
  have heq : ("=" : String).length = 1 := by decide
  have : (kv.1 ++ "=" ++ qvalToString kv.2).length =
      kv.1.length + 1 + (qvalToString kv.2).length := by
    simp [String.length_append, heq]
  omega

theorem getQueryString_char (qp : List (String × QVal)) :
    getQueryString qp =
      (if truthyPairs qp = [] then ""
       else "?" ++ String.intercalate "&" (truthyPairs qp)) := by
  rw [show getQueryString qp =
      (if String.intercalate "&" (truthyPairs qp) == "" then ""
       else "?" ++ String.intercalate "&" (truthyPairs qp)) from rfl]
  cases h : truthyPairs qp with
  | nil => simp [String.intercalate]
  | cons a l =>
    have ha : 0 < a.length := truthyPairs_pos qp a (h ▸ List.mem_cons_self a l)
    have hne : String.intercalate "&" (a :: l) ≠ "" :=
      HubJS.intercalate_cons_ne_empty "&" a l ha
    simp [hne]

end HubSearchItems

/-- C2: `getFilterQueryParam` renders a query as its filter blocks joined
by `" AND "`, each block the parenthesized join of its predicates by the
filter's operation (default `"OR"`), each predicate the parenthesized
`" AND "`-join over its fields with falsy values dropped — strings as
`field=value`, arrays as `field IN (...)`, objects as their
`any`/`all`/`not` sections joined by `" AND "` — as captured by the
claim-side `specFilterQueryParam`. -/
theorem getFilterQueryParam_spec :
    ∀ query : HubSearchItems.Query,
      HubSearchItems.getFilterQueryParam query =
        HubSearchItems.specFilterQueryParam query := by
  intro query
  simp [HubSearchItems.getFilterQueryParam, HubSearchItems.specFilterQueryParam,
    HubSearchItems.formatFilterBlock_funext]

/-- C10: the two `getQueryString` implementations agree whenever every
truthy value is a fixed point of `encodeURIComponent` — both returning `""`
with no truthy entry and `"?"` plus the `"&"`-joined `key=value` pairs of
the truthy entries in order otherwise — and they differ on an input with a
URI-reserved character. -/
theorem getQueryString_agreement :
    (∀ qp : List (String × HubSearchItems.QVal),
      (∀ kv ∈ qp, HubSearchItems.qvalTruthy kv.2 = true →
        UrlUtils.encodeURIComponent (HubSearchItems.qvalToString kv.2) =
          HubSearchItems.qvalToString kv.2) →
      HubSearchItems.getQueryString qp = UrlUtils.getQueryString qp ∧
      HubSearchItems.getQueryString qp =
        (if HubSearchItems.truthyPairs qp = [] then ""
         else "?" ++ String.intercalate "&" (HubSearchItems.truthyPairs qp))) ∧
    (∃ qp : List (String × HubSearchItems.QVal),
      HubSearchItems.getQueryString qp ≠ UrlUtils.getQueryString qp) := by
  constructor
  · intro qp h
    have hmap :
        ((qp.filter (fun kv => HubSearchItems.qvalTruthy kv.2)).map
          (fun kv => kv.1 ++ "=" ++ HubSearchItems.qvalToString kv.2)) =
        ((qp.filter (fun kv => HubSearchItems.qvalTruthy kv.2)).map
          (fun kv => kv.1 ++ "=" ++
            UrlUtils.encodeURIComponent (HubSearchItems.qvalToString kv.2))) := by
      apply List.map_congr_left
      intro kv hkv
      rw [List.mem_filter] at hkv
      rw [h kv hkv.1 hkv.2]
    refine ⟨?_, HubSearchItems.getQueryString_char qp⟩
    rw [show HubSearchItems.getQueryString qp =
        (let result := String.intercalate "&"
          ((qp.filter (fun kv => HubSearchItems.qvalTruthy kv.2)).map
            (fun kv => kv.1 ++ "=" ++ HubSearchItems.qvalToString kv.2));
         if result == "" then "" else "?" ++ result) from rfl]
    rw [show UrlUtils.getQueryString qp =
        (let result := String.intercalate "&"
          ((qp.filter (fun kv => HubSearchItems.qvalTruthy kv.2)).map
            (fun kv => kv.1 ++ "=" ++
              UrlUtils.encodeURIComponent (HubSearchItems.qvalToString kv.2)));
         if result == "" then "" else "?" ++ result) from rfl]
    rw [hmap]
  · exact ⟨[("a", .str "b:c")], by decide⟩

/-- C10 witness: on a value without reserved characters the two
implementations coincide. -/
theorem getQueryString_agreement_witness :
    HubSearchItems.getQueryString [("a", .str "b"), ("skip", .str "")] =
      UrlUtils.getQueryString [("a", .str "b"), ("skip", .str "")] :=
  ((getQueryString_agreement.1 [("a", .str "b"), ("skip", .str "")]) (by decide)).1

/-- C1 witness: for a slug identifier the rejection carries the original
error and, by the equality of `portalAttempted` with the negated slug test,
no portal fetch happens. -/
theorem getContentById_slug_fallback_witness :
    (Content.getContentById (E := Nat) (C := Nat) (.error 7) (.ok 1) (.ok 2)
        (fun c => .ok c) (fun s => s == "org::site") "org::site"
        false).result = .error 7 :=
  (getContentById_slug_fallback Nat Nat 7 (.ok 1) (.ok 2) (fun c => .ok c)
      (fun s => s == "org::site") "org::site").2 rfl

namespace EventsFilters

theorem getOpt_nil {filters : List EvFilter} {key : String}
    (hv : getPredicateValuesByKey filters key = []) :
    getOptionalPredicateStringsByKey filters key = none := by
  simp [getOptionalPredicateStringsByKey, hv]

theorem optStrGuard_none : optStrGuard none = none := rfl

end EventsFilters

/-- C9: `processFilters` always populates `status` — the guarded status
predicate string when non-empty, else exactly `"planned,canceled"` — while
every other output key is left unset when its corresponding predicates are
absent. -/
theorem processFilters_status_default :
    ∀ (toISO : String → String) (now : String)
      (oracle : List String → List (String × Bool))
      (filters : List EventsFilters.EvFilter),
      (∀ s, EventsFilters.optStrGuard
          (EventsFilters.getOptionalPredicateStringsByKey filters "status") =
            some s →
        (EventsFilters.processFilters toISO now oracle filters).status =
          some s) ∧
      (EventsFilters.optStrGuard
          (EventsFilters.getOptionalPredicateStringsByKey filters "status") =
            none →
        (EventsFilters.processFilters toISO now oracle filters).status =
          some "planned,canceled") ∧
      (EventsFilters.getPredicateValuesByKey filters "access" = [] →
        (EventsFilters.processFilters toISO now oracle filters).access = none) ∧
      (EventsFilters.getPredicateValuesByKey filters "canEdit" = [] →
        (EventsFilters.processFilters toISO now oracle filters).canEdit = none) ∧
      (EventsFilters.getPredicateValuesByKey filters "entityId" = [] →
        (EventsFilters.processFilters toISO now oracle filters).entityIds = none) ∧
      (EventsFilters.getPredicateValuesByKey filters "entityType" = [] →
        (EventsFilters.processFilters toISO now oracle filters).entityTypes = none) ∧
      (EventsFilters.getPredicateValuesByKey filters "id" = [] →
        (EventsFilters.processFilters toISO now oracle filters).eventIds = none) ∧
      (EventsFilters.getPredicateValuesByKey filters "term" = [] →
        (EventsFilters.processFilters toISO now oracle filters).title = none) ∧
      (EventsFilters.getPredicateValuesByKey filters "orgId" = [] →
        (EventsFilters.processFilters toISO now oracle filters).orgId = none) ∧
      (EventsFilters.getPredicateValuesByKey filters "categories" = [] →
        (EventsFilters.processFilters toISO now oracle filters).categories = none) ∧
      (EventsFilters.getPredicateValuesByKey filters "tags" = [] →
        (EventsFilters.processFilters toISO now oracle filters).tags = none) ∧
      (EventsFilters.getPredicateValuesByKey filters "group" = [] →
        (EventsFilters.processFilters toISO now oracle filters).sharedToGroups = none) ∧
      (EventsFilters.getPredicateValuesByKey filters "readGroupId" = [] →
        (EventsFilters.processFilters toISO now oracle filters).readGroups = none) ∧
      (EventsFilters.getPredicateValuesByKey filters "editGroupId" = [] →
        (EventsFilters.processFilters toISO now oracle filters).editGroups = none) ∧
      (EventsFilters.getPredicateValuesByKey filters "notGroup" = [] →
        EventsFilters.getPredicateValuesByKey filters "notReadGroupId" = [] →
        (EventsFilters.processFilters toISO now oracle filters).withoutReadGroups = none) ∧
      (EventsFilters.getPredicateValuesByKey filters "notGroup" = [] →
        EventsFilters.getPredicateValuesByKey filters "notEditGroupId" = [] →
        (EventsFilters.processFilters toISO now oracle filters).withoutEditGroups = none) ∧
      (EventsFilters.getPredicateValuesByKey filters "attendanceType" = [] →
        (EventsFilters.processFilters toISO now oracle filters).attendanceTypes = none) ∧
      (EventsFilters.getPredicateValuesByKey filters "owner" = [] →
        (EventsFilters.processFilters toISO now oracle filters).createdByIds = none) ∧
      (EventsFilters.getPredicateValuesByKey filters "startDateRange" = [] →
        EventsFilters.getPredicateValuesByKey filters "startDateBefore" = [] →
        EventsFilters.getPredicateValuesByKey filters "occurrence" = [] →
        (EventsFilters.processFilters toISO now oracle filters).startDateTimeBefore = none) ∧
      (EventsFilters.getPredicateValuesByKey filters "startDateRange" = [] →
        EventsFilters.getPredicateValuesByKey filters "startDateAfter" = [] →
        EventsFilters.getPredicateValuesByKey filters "occurrence" = [] →
        (EventsFilters.processFilters toISO now oracle filters).startDateTimeAfter = none) ∧
      (EventsFilters.getPredicateValuesByKey filters "endDateRange" = [] →
        EventsFilters.getPredicateValuesByKey filters "endDateBefore" = [] →
        EventsFilters.getPredicateValuesByKey filters "occurrence" = [] →
        (EventsFilters.processFilters toISO now oracle filters).endDateTimeBefore = none) ∧
      (EventsFilters.getPredicateValuesByKey filters "endDateRange" = [] →
        EventsFilters.getPredicateValuesByKey filters "endDateAfter" = [] →
        EventsFilters.getPredicateValuesByKey filters "occurrence" = [] →
        (EventsFilters.processFilters toISO now oracle filters).endDateTimeAfter = none) := by
  intro toISO now oracle filters
  refine ⟨?_, ?_, ?_, ?_, ?_, ?_, ?_, ?_, ?_, ?_, ?_, ?_, ?_, ?_, ?_, ?_, ?_,
    ?_, ?_, ?_, ?_, ?_⟩
  · intro s hs
    simp [EventsFilters.processFilters, hs]
  · intro hs
    simp only [EventsFilters.processFilters, hs]
    rfl
  · intro hv
    simp [EventsFilters.processFilters, EventsFilters.getOpt_nil hv,
      EventsFilters.optStrGuard_none]
  · intro hv
    simp [EventsFilters.processFilters, hv]
  · intro hv
    simp [EventsFilters.processFilters, EventsFilters.getOpt_nil hv,
      EventsFilters.optStrGuard_none]
  · intro hv
    simp [EventsFilters.processFilters, EventsFilters.getOpt_nil hv,
      EventsFilters.optStrGuard_none]
  · intro hv
    simp [EventsFilters.processFilters, EventsFilters.getOpt_nil hv,
      EventsFilters.optStrGuard_none]
  · intro hv
    simp [EventsFilters.processFilters, hv]
  · intro hv
    simp [EventsFilters.processFilters, hv]
  · intro hv
    simp [EventsFilters.processFilters, EventsFilters.getOpt_nil hv,
      EventsFilters.optStrGuard_none]
  · intro hv
    simp [EventsFilters.processFilters, EventsFilters.getOpt_nil hv,
      EventsFilters.optStrGuard_none]
  · intro hv
    simp [EventsFilters.processFilters, EventsFilters.getOpt_nil hv,
      EventsFilters.optStrGuard_none]
  · intro hv
    cases hg : EventsFilters.optStrGuard
        (EventsFilters.getOptionalPredicateStringsByKey filters "group") <;>
      simp [EventsFilters.processFilters, hg, EventsFilters.getOpt_nil hv,
        EventsFilters.optStrGuard_none]
  · intro hv
    cases hg : EventsFilters.optStrGuard
        (EventsFilters.getOptionalPredicateStringsByKey filters "group") <;>
      simp [EventsFilters.processFilters, hg, EventsFilters.getOpt_nil hv,
        EventsFilters.optStrGuard_none]
  · intro hg hv
    simp [EventsFilters.processFilters, hg, EventsFilters.getOpt_nil hv,
      EventsFilters.optStrGuard_none]
  · intro hg hv
    simp [EventsFilters.processFilters, hg, EventsFilters.getOpt_nil hv,
      EventsFilters.optStrGuard_none]
  · intro hv
    simp [EventsFilters.processFilters, EventsFilters.getOpt_nil hv,
      EventsFilters.optStrGuard_none]
  · intro hv
    simp [EventsFilters.processFilters, EventsFilters.getOpt_nil hv,
      EventsFilters.optStrGuard_none]
  · intro h1 h2 h3
    simp [EventsFilters.processFilters, h1, h2, h3]
  · intro h1 h2 h3
    simp [EventsFilters.processFilters, h1, h2, h3]
  · intro h1 h2 h3
    simp [EventsFilters.processFilters, h1, h2, h3]
  · intro h1 h2 h3
    simp [EventsFilters.processFilters, h1, h2, h3]

/-- C9 witness: with no filters at all the status defaults to exactly
`"planned,canceled"`. -/
theorem processFilters_status_default_witness :
    (EventsFilters.processFilters id "NOW" (fun _ => []) []).status =
      some "planned,canceled" :=
  (processFilters_status_default id "NOW" (fun _ => []) []).2.1 rfl

/-- C3 counterexample: a filter list containing a `startDateRange`
predicate (with `from` present) together with an `occurrence: "upcoming"`
predicate yields `startDateTimeAfter` equal to the current time, not a
value derived from the range's `from`, refuting the claim that the output
comes only from the range. -/
theorem processFilters_dateRange_cex :
    (EventsFilters.processFilters id "NOW" (fun _ => [])
        [⟨[[("startDateRange",
             EventsFilters.EvVal.dateRange (some "A") none)],
           [("occurrence", EventsFilters.EvVal.str "upcoming")]]⟩]).startDateTimeAfter
      = some "NOW" ∧ some "NOW" ≠ some (id "A") := by
  exact ⟨rfl, by decide⟩

/-- C3 (amended): in the absence of `occurrence` predicates, a
`startDateRange` predicate takes precedence: `startDateTimeBefore` and
`startDateTimeAfter` come only from the range's `to`/`from` (each set only
when present and truthy), with `startDateBefore`/`startDateAfter`
predicates ignored; symmetrically for `endDateRange`. -/
theorem processFilters_dateRange_precedence :
    ∀ (toISO : String → String) (now : String)
      (oracle : List String → List (String × Bool))
      (filters : List EventsFilters.EvFilter),
      EventsFilters.getPredicateValuesByKey filters "occurrence" = [] →
      (∀ v rest,
        EventsFilters.getPredicateValuesByKey filters "startDateRange" =
          v :: rest →
        (EventsFilters.processFilters toISO now oracle filters).startDateTimeBefore =
          EventsFilters.rangeBound toISO (EventsFilters.rangeTo v) ∧
        (EventsFilters.processFilters toISO now oracle filters).startDateTimeAfter =
          EventsFilters.rangeBound toISO (EventsFilters.rangeFrom v)) ∧
      (∀ v rest,
        EventsFilters.getPredicateValuesByKey filters "endDateRange" =
          v :: rest →
        (EventsFilters.processFilters toISO now oracle filters).endDateTimeBefore =
          EventsFilters.rangeBound toISO (EventsFilters.rangeTo v) ∧
        (EventsFilters.processFilters toISO now oracle filters).endDateTimeAfter =
          EventsFilters.rangeBound toISO (EventsFilters.rangeFrom v)) := by
  intro toISO now oracle filters hocc
  constructor
  · intro v rest hr
    constructor <;> simp [EventsFilters.processFilters, hocc, hr]
  · intro v rest hr
    constructor <;> simp [EventsFilters.processFilters, hocc, hr]

/-- C3 witness: with only a `startDateRange` predicate, the range's `from`
becomes `startDateTimeAfter`. -/
theorem processFilters_dateRange_precedence_witness :
    (EventsFilters.processFilters id "NOW" (fun _ => [])
        [⟨[[("startDateRange",
             EventsFilters.EvVal.dateRange (some "A") (some "B"))]]⟩]).startDateTimeAfter
      = some "A" :=
  Eq.trans
    (((processFilters_dateRange_precedence id "NOW" (fun _ => [])
        [⟨[[("startDateRange",
             EventsFilters.EvVal.dateRange (some "A") (some "B"))]]⟩]
        rfl).1 (EventsFilters.EvVal.dateRange (some "A") (some "B")) [] rfl).2)
    rfl
